import Mathlib

/-!
# dGateway capture-and-replay proxy: a shallow embedding

Definitions are translated from the Go sources of the dGateway repository
(`database.go` and the main proxy file): the content classifier
`isTextData`, the capture interceptor (`ProxyHandler.ServeHTTP` and
`proxy.ModifyResponse`), the bounded log channel, the list query
`getRequests`, the schema migration (`InitDB` / `addColumnIfNotExists`),
and the replay engine's classification and URL resolution.

Bodies are byte lists (`List Nat`, each element a byte value below 256).
The gzip codec (`compress/gzip` via `decompressGzip`) is kept abstract as a
parameter `gunzip : List Nat → Option (List Nat)`: `none` models a
decompression error, `some d` a successful inflation to `d`.  All claims
about the surrounding code quantify over this parameter.
-/

namespace DGateway

/-- `charsPrefixOf p l` is true when `p` is an initial segment of `l`.
Character-list model of Go's `strings.HasPrefix`. -/
def charsPrefixOf : List Char → List Char → Bool
  | [], _ => true
  | _ :: _, [] => false
  | a :: p, b :: l => a == b && charsPrefixOf p l

/-- `charsHasSub n l` is true when `n` occurs contiguously inside `l`.
Character-list model of Go's `strings.Contains`. -/
def charsHasSub (n : List Char) : List Char → Bool
  | [] => charsPrefixOf n []
  | c :: t => charsPrefixOf n (c :: t) || charsHasSub n t

/-- Go's `strings.HasPrefix s p`. -/
def goHasPrefix (s p : String) : Bool := charsPrefixOf p.data s.data

/-- Go's `strings.Contains s sub`. -/
def goContains (s sub : String) : Bool := charsHasSub sub.data s.data

theorem charsPrefixOf_iff (p : List Char) : ∀ l : List Char,
    charsPrefixOf p l = true ↔ ∃ t, l = p ++ t := by
  induction p with
  | nil =>
    intro l
    simp [charsPrefixOf]
  | cons a p ih =>
    intro l
    cases l with
    | nil =>
      simp [charsPrefixOf]
    | cons b l =>
      rw [charsPrefixOf, Bool.and_eq_true, beq_iff_eq, ih]
      constructor
      · rintro ⟨rfl, t, rfl⟩
        exact ⟨t, rfl⟩
      · rintro ⟨t, h⟩
        rw [List.cons_append] at h
        injection h with h1 h2
        exact ⟨h1.symm, t, h2⟩

theorem charsHasSub_iff (n : List Char) : ∀ l : List Char,
    charsHasSub n l = true ↔ ∃ s t, l = s ++ n ++ t := by
  intro l
  induction l with
  | nil =>
    rw [charsHasSub, charsPrefixOf_iff]
    constructor
    · rintro ⟨t, h⟩
      exact ⟨[], t, by simpa using h⟩
    · rintro ⟨s, t, h⟩
      rw [eq_comm, List.append_assoc, List.append_eq_nil, List.append_eq_nil] at h
      exact ⟨[], by simp [h.2.1]⟩
  | cons c l ih =>
    rw [charsHasSub, Bool.or_eq_true, charsPrefixOf_iff, ih]
    constructor
    · rintro (⟨t, h⟩ | ⟨s, t, h⟩)
      · exact ⟨[], t, by simpa using h⟩
      · exact ⟨c :: s, t, by simp [h]⟩
    · rintro ⟨s, t, h⟩
      cases s with
      | nil =>
        exact Or.inl ⟨t, by simpa using h⟩
      | cons c0 s =>
        rw [List.cons_append, List.cons_append] at h
        injection h with h1 h2
        exact Or.inr ⟨s, t, by simp [h2]⟩

/-- A substring occurrence survives widening the haystack: if `s` contains
`big` and `small` occurs inside `big`, then `s` contains `small`. -/
theorem goContains_of_sub (s big small : String)
    (h : goContains s big = true)
    (hsub : charsHasSub small.data big.data = true) :
    goContains s small = true := by
  rw [goContains, charsHasSub_iff] at h ⊢
  rw [charsHasSub_iff] at hsub
  obtain ⟨u, v, hl⟩ := h
  obtain ⟨p, q, hb⟩ := hsub
  refine ⟨u ++ p, q ++ v, ?_⟩
  rw [hl, hb]
  simp [List.append_assoc]

/-! ## Content classifier (`database.go`, `isTextData`) -/

/-- A byte the classifier counts as printable: horizontal tab, line feed,
carriage return, or the ASCII range `[0x20, 0x7E]`.  Mirrors the loop body
of `isTextData`. -/
def isTextByte (b : Nat) : Bool :=
  b == 0x09 || b == 0x0A || b == 0x0D || (decide (0x20 ≤ b) && decide (b ≤ 0x7E))

/-- The declared-media-type test of `isTextData`'s first branch:
`strings.HasPrefix(contentType, "text/")` or one of the four
`strings.Contains` checks. -/
def isTextualContentType (contentType : String) : Bool :=
  goHasPrefix contentType "text/" ||
  goContains contentType "application/json" ||
  goContains contentType "application/xml" ||
  goContains contentType "application/javascript" ||
  goContains contentType "application/xhtml+xml"

/-- The printable-byte count of `isTextData`: bytes satisfying `isTextByte`
among the first `min (len data) 512` bytes. -/
def printableCount (data : List Nat) : Nat :=
  ((data.take (min data.length 512)).filter isTextByte).length

/-- Source: `database.go`, `isTextData(data []byte, contentType string) bool`.
The final comparison `float64(textChars)/float64(min(len(data), 512)) > 0.7`
is modelled as the exact rational comparison, with which it agrees for all
`textChars ≤ 512` and denominators in `[1, 512]` (the float error is far
below the `1/5120` gap between distinct candidate fractions, and `7/10`
itself rounds identically on both sides). -/
def isTextData (data : List Nat) (contentType : String) : Bool :=
  if isTextualContentType contentType then true
  else if data.length = 0 then true
  else decide ((7 : ℚ) / 10 < (printableCount data : ℚ) / ((min data.length 512 : Nat) : ℚ))

/-- For a nonempty sample the rational threshold test is the integer
cross-multiplication test. -/
theorem ratio_iff (t n : Nat) (hn : 0 < n) :
    ((7 : ℚ) / 10 < (t : ℚ) / (n : ℚ)) ↔ 7 * n < 10 * t := by
  rw [div_lt_div_iff₀ (by norm_num) (by exact_mod_cast hn)]
  constructor
  · intro h
    have : ((7 * n : Nat) : ℚ) < ((10 * t : Nat) : ℚ) := by push_cast; linarith
    exact_mod_cast this
  · intro h
    have : ((7 * n : Nat) : ℚ) < ((10 * t : Nat) : ℚ) := by exact_mod_cast h
    push_cast at this
    linarith

/-- The classifier's verdict, characterized without rationals: text exactly
when the declared type is textual, the payload is empty, or the printable
count clears the cross-multiplied 0.70 threshold. -/
theorem isTextData_eq_iff (b : List Nat) (ct : String) :
    isTextData b ct = true ↔
      (isTextualContentType ct = true ∨ b = [] ∨
        7 * min b.length 512 < 10 * printableCount b) := by
  cases hct : isTextualContentType ct with
  | true =>
    rw [isTextData, if_pos hct]
    simp
  | false =>
    rw [isTextData, if_neg (by simp [hct])]
    by_cases hb : b = []
    · subst hb
      simp
    · have hlen : b.length ≠ 0 := by simpa [List.length_eq_zero] using hb
      rw [if_neg hlen]
      have hn : 0 < min b.length 512 := by
        have : 0 < b.length := Nat.pos_of_ne_zero hlen
        omega
      rw [decide_eq_true_eq, ratio_iff _ _ hn]
      simp [hb, hct]

/-- **C4.** The classifier applies its policy in order: a declared textual
media type forces `text` (in particular `text/plain`, for every payload);
otherwise an empty payload is `text`; otherwise the verdict is `text`
exactly when the printable fraction over the first `min 512 (len b)` bytes
exceeds `0.70` (stated as the equivalent cross-multiplied inequality). -/
theorem isTextData_policy (b : List Nat) (ct : String) :
    isTextData b "text/plain" = true ∧
    (isTextData b ct = true ↔
      (isTextualContentType ct = true ∨ b = [] ∨
        7 * min b.length 512 < 10 * printableCount b)) := by
  constructor
  · have h : isTextualContentType "text/plain" = true := by decide
    rw [isTextData, if_pos h]
  · exact isTextData_eq_iff b ct

/-! ## Headers

Go's `http.Header` is a `map[string][]string`; the repository accesses it
only through `Get`, `Del` and `Set` with canonical-form keys
(`Content-Encoding`, `Content-Length`, `Content-Type`), so plain string
equality on keys is faithful here.  `HeadersToJSON` serializes the whole
multimap; the log model keeps the `Headers` value itself (the serialization
is a function of it, so equalities of stored headers transfer). -/

structure Headers where
  entries : List (String × List String)
deriving DecidableEq

/-- `http.Header.Get`: the first value associated with the key, or `""`. -/
def Headers.get (h : Headers) (k : String) : String :=
  match h.entries.find? (fun p => p.1 == k) with
  | some (_, v :: _) => v
  | _ => ""

/-- `http.Header.Del`: remove the key. -/
def Headers.del (h : Headers) (k : String) : Headers :=
  ⟨h.entries.filter (fun p => !(p.1 == k))⟩

/-- `http.Header.Set`: replace all values of the key with the single value. -/
def Headers.set (h : Headers) (k v : String) : Headers :=
  ⟨(h.entries.filter (fun p => !(p.1 == k))) ++ [(k, [v])]⟩

/-- The row of the `requests` table / the Go struct `RequestLog`
(`database.go`).  Header JSON strings are modelled by the `Headers` values
they serialize. -/
structure RequestLog where
  id : Nat := 0
  timestamp : Nat := 0
  method : String := ""
  url : String := ""
  requestHeaders : Headers := ⟨[]⟩
  requestBody : List Nat := []
  requestBodySize : Nat := 0
  isRequestBodyText : Bool := false
  statusCode : Nat := 0
  responseHeaders : Headers := ⟨[]⟩
  responseBody : List Nat := []
  responseBodySize : Nat := 0
  isResponseBodyText : Bool := false
deriving DecidableEq

/-- `getContentTypeFromHeaders` (`database.go`): unmarshal the stored header
JSON and read `Content-Type`; on the `Headers` model this is `get`. -/
def getContentTypeFromHeaders (h : Headers) : String := h.get "Content-Type"

/-- `LogRequest` (`database.go`): the consumer populates the derived size and
text/binary columns from the stored bodies before the INSERT.  The result is
the row as persisted. -/
def LogRequest (e : RequestLog) : RequestLog :=
  { e with
    requestBodySize := e.requestBody.length,
    isRequestBodyText := isTextData e.requestBody (getContentTypeFromHeaders e.requestHeaders),
    responseBodySize := e.responseBody.length,
    isResponseBodyText := isTextData e.responseBody (getContentTypeFromHeaders e.responseHeaders) }

/-! ## Persistence pipeline (`requestLogChan`, buffered channel of size 100) -/

/-- The capacity of `requestLogChan`: `make(chan RequestLog, 100)`. -/
def logChanCapacity : Nat := 100

/-- The state of the buffered channel while its consumer is blocked: the
pending FIFO contents plus a count of drop events reported to the log. -/
structure LogQueue where
  pending : List RequestLog := []
  drops : Nat := 0
deriving DecidableEq

/-- The non-blocking send (`select { case requestLogChan <- *reqLog: ...
default: log.Println("... dropping log entry.") }`): append when the buffer
has room, otherwise leave the queue unchanged and count a drop event. -/
def trySendLog (q : LogQueue) (x : RequestLog) : LogQueue :=
  if q.pending.length < logChanCapacity then { q with pending := q.pending ++ [x] }
  else { q with drops := q.drops + 1 }

/-- A burst of producers enqueueing records in order while the consumer is
blocked. -/
def enqueueAll (q : LogQueue) (xs : List RequestLog) : LogQueue :=
  xs.foldl trySendLog q

/-- The consumer goroutine (`for logEntry := range requestLogChan {
LogRequest(logEntry) }`) draining the queue in arrival order: the rows that
get persisted. -/
def drainAll (q : LogQueue) : List RequestLog :=
  q.pending.map LogRequest

/-! ## Capture interceptor -/

/-- An in-flight HTTP request as the interceptor sees it: method, URL,
headers, and the fully read body bytes. -/
structure HTTPRequest where
  method : String := ""
  url : String := ""
  headers : Headers := ⟨[]⟩
  body : List Nat := []
deriving DecidableEq

/-- An upstream HTTP response as `ModifyResponse` sees it, with the body
fully read. -/
structure HTTPResponse where
  statusCode : Nat := 0
  headers : Headers := ⟨[]⟩
  body : List Nat := []
deriving DecidableEq

/-- The abstract gzip codec: `decompressGzip` either fails (`none`) or
inflates to `some d`. -/
abbrev Gunzip := List Nat → Option (List Nat)

/-- The caller-side fallback around `decompressGzip`: keep the raw bytes on
error, use the inflated bytes on success.  This is the shape of every call
site in the source. -/
def gunzipOrRaw (gunzip : Gunzip) (b : List Nat) : List Nat :=
  match gunzip b with
  | none => b
  | some d => d

/-- What `ProxyHandler.ServeHTTP` produces on the successful-read path: the
request handed to the reverse proxy (body re-wrapped from the captured
bytes) and the partial `RequestLog` placed in the request context. -/
structure CaptureResult where
  forwarded : HTTPRequest
  reqLog : RequestLog
deriving DecidableEq

/-- Source: `ProxyHandler.ServeHTTP`.  The body is read once and restored;
if the request carries `Content-Encoding: gzip` the logged body is the
decompressed form (falling back to the raw bytes on error), while the
forwarded request is untouched. -/
def serveHTTPCapture (gunzip : Gunzip) (now : Nat) (r : HTTPRequest) : CaptureResult :=
  let requestBody := r.body
  let decompressedReqBody :=
    if r.headers.get "Content-Encoding" = "gzip" then gunzipOrRaw gunzip requestBody
    else requestBody
  { forwarded := { r with body := requestBody },
    reqLog := { timestamp := now, method := r.method, url := r.url,
                requestHeaders := r.headers, requestBody := decompressedReqBody } }

/-- The gzip block of `proxy.ModifyResponse` (and, on the stored side, of the
replay handler): when the response declares `Content-Encoding: gzip` and
decompression succeeds, the body becomes the inflated bytes, the
`Content-Encoding` header is removed and `Content-Length` is set to the new
size; otherwise body and headers pass through unchanged. -/
def gzipDecodeStep (gunzip : Gunzip) (headers : Headers) (body : List Nat) :
    List Nat × Headers :=
  if headers.get "Content-Encoding" = "gzip" then
    match gunzip body with
    | none => (body, headers)
    | some decompressedBody =>
        (decompressedBody,
         (headers.del "Content-Encoding").set "Content-Length"
           (toString decompressedBody.length))
  else (body, headers)

/-- The outcome of `proxy.ModifyResponse`: the response that continues to
the client, the completed log candidate, and the channel state after the
conditional non-blocking enqueue. -/
structure ModifyOutcome where
  resp : HTTPResponse
  reqLog : RequestLog
  chan : LogQueue
deriving DecidableEq

/-- Source: `proxy.ModifyResponse` (successful body read).  Status code and
headers are snapshotted into the log before the gzip step — the comment in
the source reads "do this early to preserve original headers for logging" —
then body and client-visible headers go through `gzipDecodeStep`, the
resulting body is both stored and forwarded, and the record is enqueued
non-blockingly when recording is on. -/
def modifyResponse (gunzip : Gunzip) (isRecording : Bool) (chan : LogQueue)
    (reqLog : RequestLog) (resp : HTTPResponse) : ModifyOutcome :=
  let reqLog1 := { reqLog with statusCode := resp.statusCode, responseHeaders := resp.headers }
  let p := gzipDecodeStep gunzip resp.headers resp.body
  let reqLog2 := { reqLog1 with responseBody := p.1 }
  let resp2 : HTTPResponse := { statusCode := resp.statusCode, headers := p.2, body := p.1 }
  let chan2 := if isRecording then trySendLog chan reqLog2 else chan
  { resp := resp2, reqLog := reqLog2, chan := chan2 }

theorem gzipDecodeStep_not_gzip (gunzip : Gunzip) (hs : Headers) (b : List Nat)
    (h : ¬ hs.get "Content-Encoding" = "gzip") :
    gzipDecodeStep gunzip hs b = (b, hs) := by
  rw [gzipDecodeStep, if_neg h]

theorem gzipDecodeStep_gzip_none (gunzip : Gunzip) (hs : Headers) (b : List Nat)
    (h : hs.get "Content-Encoding" = "gzip") (hf : gunzip b = none) :
    gzipDecodeStep gunzip hs b = (b, hs) := by
  rw [gzipDecodeStep, if_pos h, hf]

theorem gzipDecodeStep_gzip_some (gunzip : Gunzip) (hs : Headers) (b d : List Nat)
    (h : hs.get "Content-Encoding" = "gzip") (hd : gunzip b = some d) :
    gzipDecodeStep gunzip hs b =
      (d, (hs.del "Content-Encoding").set "Content-Length" (toString d.length)) := by
  rw [gzipDecodeStep, if_pos h, hd]

/-- **C1 (amended).** What the client sees after `ModifyResponse`: the status
code is the upstream's, and the forwarded body always equals the stored
body.  When the response does not declare `Content-Encoding: gzip`, and
likewise when it does but decompression fails, the response continues
byte-identical, headers included — whatever the recording state, so
regardless of whether the exchange gets logged.  When gzip decompression
succeeds, however, the client receives the *decompressed* body, with
`Content-Encoding` removed and `Content-Length` rewritten to the
decompressed size — not the bytes the upstream sent. -/
theorem modifyResponse_client_view (gunzip : Gunzip) (isRecording : Bool) (q : LogQueue)
    (rl : RequestLog) (resp : HTTPResponse) :
    (modifyResponse gunzip isRecording q rl resp).resp.statusCode = resp.statusCode ∧
    (modifyResponse gunzip isRecording q rl resp).resp.body
      = (modifyResponse gunzip isRecording q rl resp).reqLog.responseBody ∧
    (¬ resp.headers.get "Content-Encoding" = "gzip" →
      (modifyResponse gunzip isRecording q rl resp).resp = resp) ∧
    (resp.headers.get "Content-Encoding" = "gzip" → gunzip resp.body = none →
      (modifyResponse gunzip isRecording q rl resp).resp = resp) ∧
    (∀ d : List Nat, resp.headers.get "Content-Encoding" = "gzip" →
      gunzip resp.body = some d →
      (modifyResponse gunzip isRecording q rl resp).resp.body = d ∧
      (modifyResponse gunzip isRecording q rl resp).resp.headers
        = (resp.headers.del "Content-Encoding").set "Content-Length"
            (toString d.length)) := by
  refine ⟨rfl, rfl, ?_, ?_, ?_⟩
  · intro hne
    simp only [modifyResponse, gzipDecodeStep_not_gzip gunzip resp.headers resp.body hne]
  · intro hce hfail
    simp only [modifyResponse,
      gzipDecodeStep_gzip_none gunzip resp.headers resp.body hce hfail]
  · intro d hce hd
    simp only [modifyResponse,
      gzipDecodeStep_gzip_some gunzip resp.headers resp.body d hce hd]
    exact ⟨trivial, trivial⟩

/-- **C1 counterexample.** A gzip-encoded upstream response whose body
decompresses successfully is *not* delivered byte-identical to the client:
the code forwards the decompressed bytes. -/
theorem modifyResponse_gzip_alters_client_body :
    (modifyResponse (fun _ => some [104, 105]) false {} {}
        { statusCode := 200, headers := ⟨[("Content-Encoding", ["gzip"])]⟩,
          body := [31, 139, 8] }).resp.body ≠ [31, 139, 8] := by decide

/-- **C2 (amended).** The stored response headers are the snapshot taken
*before* the gzip step — exactly the headers as received from upstream,
`Content-Encoding` and original `Content-Length` retained — while the
stored body is the decompressed one; the `Content-Encoding`/`Content-Length`
correction is applied to the client-forwarded headers instead. -/
theorem modifyResponse_stored_snapshot (gunzip : Gunzip) (isRecording : Bool) (q : LogQueue)
    (rl : RequestLog) (resp : HTTPResponse) :
    (modifyResponse gunzip isRecording q rl resp).reqLog.responseHeaders = resp.headers ∧
    (modifyResponse gunzip isRecording q rl resp).reqLog.statusCode = resp.statusCode ∧
    (∀ d : List Nat, resp.headers.get "Content-Encoding" = "gzip" →
      gunzip resp.body = some d →
      (modifyResponse gunzip isRecording q rl resp).reqLog.responseBody = d ∧
      (modifyResponse gunzip isRecording q rl resp).resp.headers
        = (resp.headers.del "Content-Encoding").set "Content-Length"
            (toString d.length)) := by
  refine ⟨rfl, rfl, ?_⟩
  intro d hce hd
  simp only [modifyResponse,
    gzipDecodeStep_gzip_some gunzip resp.headers resp.body d hce hd]
  exact ⟨trivial, trivial⟩

/-- **C2 counterexample.** After a successful gzip decompression the
*stored* headers still carry `Content-Encoding: gzip`; they are not the
claimed corrected headers (which have the encoding removed). -/
theorem modifyResponse_stored_headers_keep_encoding :
    ((modifyResponse (fun _ => some [104, 105]) false {} {}
        { statusCode := 200, headers := ⟨[("Content-Encoding", ["gzip"])]⟩,
          body := [31, 139, 8] }).reqLog.responseHeaders).get "Content-Encoding"
      = "gzip" ∧
    (modifyResponse (fun _ => some [104, 105]) false {} {}
        { statusCode := 200, headers := ⟨[("Content-Encoding", ["gzip"])]⟩,
          body := [31, 139, 8] }).reqLog.responseHeaders
      ≠ ((⟨[("Content-Encoding", ["gzip"])]⟩ : Headers).del "Content-Encoding").set
          "Content-Length" (toString (2 : Nat)) := by decide

/-- **C3.** When gzip decompression of the response body fails, the raw
compressed bytes are both forwarded and stored unmodified, the stored
headers are exactly as received, and (with recording on and room in the
queue) the exchange is still enqueued for logging — the failure is not
fatal. -/
theorem modifyResponse_gzip_failure (gunzip : Gunzip) (q : LogQueue) (rl : RequestLog)
    (resp : HTTPResponse)
    (hce : resp.headers.get "Content-Encoding" = "gzip")
    (hfail : gunzip resp.body = none) :
    (modifyResponse gunzip true q rl resp).resp = resp ∧
    (modifyResponse gunzip true q rl resp).reqLog.responseBody = resp.body ∧
    (modifyResponse gunzip true q rl resp).reqLog.responseHeaders = resp.headers ∧
    (q.pending.length < logChanCapacity →
      (modifyResponse gunzip true q rl resp).chan.pending
        = q.pending ++ [(modifyResponse gunzip true q rl resp).reqLog]) := by
  have h := gzipDecodeStep_gzip_none gunzip resp.headers resp.body hce hfail
  refine ⟨?_, ?_, rfl, ?_⟩
  · simp only [modifyResponse, h]
  · simp only [modifyResponse, h]
  · intro hroom
    simp only [modifyResponse, h, trySendLog, if_pos, if_true]
    rw [if_pos hroom]

/-- **C3 witness.** A concrete bad-gzip response: forwarded unchanged and
still enqueued. -/
theorem modifyResponse_gzip_failure_witness :
    (modifyResponse (fun _ => none) true {} {}
        { statusCode := 502, headers := ⟨[("Content-Encoding", ["gzip"])]⟩,
          body := [31, 139] }).resp
      = { statusCode := 502, headers := ⟨[("Content-Encoding", ["gzip"])]⟩,
          body := [31, 139] } ∧
    (modifyResponse (fun _ => none) true {} {}
        { statusCode := 502, headers := ⟨[("Content-Encoding", ["gzip"])]⟩,
          body := [31, 139] }).chan.pending
      = [(modifyResponse (fun _ => none) true {} {}
            { statusCode := 502, headers := ⟨[("Content-Encoding", ["gzip"])]⟩,
              body := [31, 139] }).reqLog] := by
  have h := modifyResponse_gzip_failure (fun _ => none) {} {}
    { statusCode := 502, headers := ⟨[("Content-Encoding", ["gzip"])]⟩,
      body := [31, 139] } (by decide) rfl
  exact ⟨h.1, h.2.2.2 (by decide)⟩

/-- **C10.** On the request side (`ProxyHandler.ServeHTTP`), when the
inbound request declares `Content-Encoding: gzip` and its body decompresses
successfully, only the stored request-body field changes: the log keeps the
decompressed body while the stored request headers are exactly the headers
as received (encoding and length headers untouched), method, URL and
timestamp are captured as-is, and the request forwarded upstream is
unchanged, original compressed body included. -/
theorem serveHTTPCapture_gzip_request (gunzip : Gunzip) (now : Nat) (r : HTTPRequest)
    (d : List Nat)
    (hce : r.headers.get "Content-Encoding" = "gzip")
    (hd : gunzip r.body = some d) :
    (serveHTTPCapture gunzip now r).forwarded = r ∧
    (serveHTTPCapture gunzip now r).reqLog.requestBody = d ∧
    (serveHTTPCapture gunzip now r).reqLog.requestHeaders = r.headers ∧
    (serveHTTPCapture gunzip now r).reqLog.method = r.method ∧
    (serveHTTPCapture gunzip now r).reqLog.url = r.url ∧
    (serveHTTPCapture gunzip now r).reqLog.timestamp = now := by
  refine ⟨rfl, ?_, rfl, rfl, rfl, rfl⟩
  simp only [serveHTTPCapture, if_pos hce, gunzipOrRaw, hd]

/-- **C10 witness.** A concrete gzip-encoded inbound request. -/
theorem serveHTTPCapture_gzip_request_witness :
    (serveHTTPCapture (fun _ => some [123, 125]) 7
        { method := "POST", url := "/u?a=1",
          headers := ⟨[("Content-Encoding", ["gzip"]), ("Content-Length", ["3"])]⟩,
          body := [31, 139, 0] }).forwarded
      = { method := "POST", url := "/u?a=1",
          headers := ⟨[("Content-Encoding", ["gzip"]), ("Content-Length", ["3"])]⟩,
          body := [31, 139, 0] } ∧
    (serveHTTPCapture (fun _ => some [123, 125]) 7
        { method := "POST", url := "/u?a=1",
          headers := ⟨[("Content-Encoding", ["gzip"]), ("Content-Length", ["3"])]⟩,
          body := [31, 139, 0] }).reqLog.requestBody = [123, 125] ∧
    (serveHTTPCapture (fun _ => some [123, 125]) 7
        { method := "POST", url := "/u?a=1",
          headers := ⟨[("Content-Encoding", ["gzip"]), ("Content-Length", ["3"])]⟩,
          body := [31, 139, 0] }).reqLog.requestHeaders
      = ⟨[("Content-Encoding", ["gzip"]), ("Content-Length", ["3"])]⟩ := by
  have h := serveHTTPCapture_gzip_request (fun _ => some [123, 125]) 7
    { method := "POST", url := "/u?a=1",
      headers := ⟨[("Content-Encoding", ["gzip"]), ("Content-Length", ["3"])]⟩,
      body := [31, 139, 0] } [123, 125] (by decide) rfl
  exact ⟨h.1, h.2.1, h.2.2.1⟩

/-- While the consumer is blocked, enqueueing fills the buffer to capacity
and counts every further record as a drop. -/
theorem enqueueAll_spec (xs : List RequestLog) : ∀ q : LogQueue,
    q.pending.length ≤ logChanCapacity →
    (enqueueAll q xs).pending
      = q.pending ++ xs.take (logChanCapacity - q.pending.length) ∧
    (enqueueAll q xs).drops
      = q.drops + (xs.length - (logChanCapacity - q.pending.length)) := by
  induction xs with
  | nil =>
    intro q hq
    simp [enqueueAll]
  | cons x xs ih =>
    intro q hq
    have hstep : enqueueAll q (x :: xs) = enqueueAll (trySendLog q x) xs := rfl
    by_cases hlt : q.pending.length < logChanCapacity
    · have ht : trySendLog q x = { q with pending := q.pending ++ [x] } := by
        rw [trySendLog, if_pos hlt]
      have hlen :
          ({ q with pending := q.pending ++ [x] } : LogQueue).pending.length
            ≤ logChanCapacity := by
        simp
        omega
      obtain ⟨h1, h2⟩ := ih _ hlen
      simp only [List.length_append, List.length_cons, List.length_nil] at h1 h2
      rw [hstep, ht]
      have hk : logChanCapacity - q.pending.length
          = (logChanCapacity - (q.pending.length + 1)) + 1 := by omega
      constructor
      · rw [h1, hk, List.take_succ_cons]
        simp
      · rw [h2]
        simp only [List.length_cons]
        omega
    · have ht : trySendLog q x = { q with drops := q.drops + 1 } := by
        rw [trySendLog, if_neg hlt]
      obtain ⟨h1, h2⟩ := ih ({ q with drops := q.drops + 1 }) (by simpa using hq)
      rw [hstep, ht]
      have hfull : logChanCapacity - q.pending.length = 0 := by omega
      constructor
      · rw [h1]
        simp [hfull]
      · rw [h2]
        simp only [List.length_cons, hfull]
        omega

/-- **C5.** The pipeline is a bounded FIFO of capacity `logChanCapacity =
100`; an enqueue onto a full queue leaves it unchanged and counts a drop;
enqueueing more than 100 records under a blocked consumer leaves exactly the
first 100 to be persisted (once the consumer drains, one `LogRequest` per
record) and one logged drop event for each of the rest.  `trySendLog` is a
total function: no producer ever blocks. -/
theorem requestLogChan_dropOnFull (xs : List RequestLog)
    (h : logChanCapacity < xs.length) :
    (enqueueAll {} xs).pending = xs.take logChanCapacity ∧
    (drainAll (enqueueAll {} xs)).length = logChanCapacity ∧
    (enqueueAll {} xs).drops = xs.length - logChanCapacity ∧
    (∀ (q : LogQueue) (x : RequestLog), ¬ q.pending.length < logChanCapacity →
      trySendLog q x = { q with drops := q.drops + 1 }) := by
  obtain ⟨h1, h2⟩ := enqueueAll_spec xs {} (by simp)
  simp only [List.length_nil, List.nil_append, Nat.sub_zero] at h1 h2
  refine ⟨h1, ?_, ?_, ?_⟩
  · rw [drainAll, List.length_map, h1, List.length_take]
    omega
  · rw [h2]
    omega
  · intro q x hn
    rw [trySendLog, if_neg hn]

/-- **C5 witness.** 101 records against the empty queue: 100 buffered (and
persisted by the drain), 1 drop. -/
theorem requestLogChan_dropOnFull_witness :
    (enqueueAll {} (List.replicate 101 ({} : RequestLog))).pending
      = (List.replicate 101 ({} : RequestLog)).take logChanCapacity ∧
    (drainAll (enqueueAll {} (List.replicate 101 ({} : RequestLog)))).length
      = logChanCapacity ∧
    (enqueueAll {} (List.replicate 101 ({} : RequestLog))).drops
      = (List.replicate 101 ({} : RequestLog)).length - logChanCapacity ∧
    (∀ (q : LogQueue) (x : RequestLog), ¬ q.pending.length < logChanCapacity →
      trySendLog q x = { q with drops := q.drops + 1 }) :=
  requestLogChan_dropOnFull _ (by simp [logChanCapacity])

/-! ## Replay engine: response classification and encoding -/

/-- Go's `string(bytes)` conversion as the replay handler uses it on the
(textual) response bytes: each byte becomes the character of its code
point. -/
def stringFromBytes (b : List Nat) : String := String.mk (b.map Char.ofNat)

/-- The standard base64 alphabet of `encoding/base64.StdEncoding`. -/
def base64Chars : List Char :=
  "ABCDEFGHIJKLMNOPQRSTUVWXYZabcdefghijklmnopqrstuvwxyz0123456789+/".data

def base64Digit (n : Nat) : Char := base64Chars.getD n 'A'

/-- `base64.StdEncoding.EncodeToString` on bytes: three input bytes become
four alphabet characters; a final block of one or two bytes is padded with
`=`.  (`a / 4 = a >> 2`, `a % 4 * 16 = (a & 3) << 4`, and so on for byte
values below 256.) -/
def base64EncodeCore : List Nat → List Char
  | [] => []
  | [a] => [base64Digit (a / 4), base64Digit (a % 4 * 16), '=', '=']
  | [a, b] => [base64Digit (a / 4), base64Digit (a % 4 * 16 + b / 16),
               base64Digit (b % 16 * 4), '=']
  | a :: b :: c :: rest =>
    base64Digit (a / 4) :: base64Digit (a % 4 * 16 + b / 16) ::
    base64Digit (b % 16 * 4 + c / 64) :: base64Digit (c % 64) ::
    base64EncodeCore rest

def base64EncodeStr (b : List Nat) : String := String.mk (base64EncodeCore b)

/-- The replay handler's text test (`replayRequest`): it looks only at the
response `Content-Type` — prefix `text/`, or substrings `json`, `xml`,
`javascript`.  Unlike `isTextData` it never inspects the bytes. -/
def replayClassify (contentType : String) : Bool :=
  goHasPrefix contentType "text/" || goContains contentType "json" ||
  goContains contentType "xml" || goContains contentType "javascript"

/-- The replayed response bytes after the gzip attempt (`replayRequest`):
decompress when `Content-Encoding: gzip`, keeping the raw bytes on error. -/
def replayBodyBytes (gunzip : Gunzip) (respHeaders : Headers) (respBody : List Nat) :
    List Nat :=
  if respHeaders.get "Content-Encoding" = "gzip" then gunzipOrRaw gunzip respBody
  else respBody

/-- The body the replay handler returns to its caller: the text/binary
verdict and, accordingly, the plain string or the base64 encoding of the
body bytes. -/
def replayResponseView (gunzip : Gunzip) (respHeaders : Headers) (respBody : List Nat) :
    Bool × String :=
  let bodyBytes := replayBodyBytes gunzip respHeaders respBody
  let isText := replayClassify (respHeaders.get "Content-Type")
  (isText, if isText then stringFromBytes bodyBytes else base64EncodeStr bodyBytes)

/-- **C7 (amended).** The replay engine's text-vs-binary decision is *not*
the content classifier's: it is computed from the declared `Content-Type`
alone (prefix `text/` or substrings `json`/`xml`/`javascript`), with no
empty-payload rule and no printable-ratio heuristic.  It does agree with the
classifier whenever the classifier's declared-media-type family check fires,
and text bodies are returned as plain text while binary bodies are
base64-encoded. -/
theorem replayClassify_vs_classifier (gunzip : Gunzip) (hs : Headers) (b : List Nat) :
    (replayResponseView gunzip hs b).1 = replayClassify (hs.get "Content-Type") ∧
    (isTextualContentType (hs.get "Content-Type") = true →
      (replayResponseView gunzip hs b).1 = true) ∧
    (replayResponseView gunzip hs b).2
      = (if replayClassify (hs.get "Content-Type") then
          stringFromBytes (replayBodyBytes gunzip hs b)
        else base64EncodeStr (replayBodyBytes gunzip hs b)) := by
  refine ⟨rfl, ?_, rfl⟩
  intro h
  show replayClassify (hs.get "Content-Type") = true
  have h5 : goHasPrefix (hs.get "Content-Type") "text/" = true ∨
      goContains (hs.get "Content-Type") "application/json" = true ∨
      goContains (hs.get "Content-Type") "application/xml" = true ∨
      goContains (hs.get "Content-Type") "application/javascript" = true ∨
      goContains (hs.get "Content-Type") "application/xhtml+xml" = true := by
    rw [isTextualContentType] at h
    simp only [Bool.or_eq_true] at h
    tauto
  rw [replayClassify]
  rcases h5 with hx | hx | hx | hx | hx
  · simp only [hx, Bool.true_or]
  · have : goContains (hs.get "Content-Type") "json" = true :=
      goContains_of_sub _ _ _ hx (by decide)
    simp only [this, Bool.true_or, Bool.or_true]
  · have : goContains (hs.get "Content-Type") "xml" = true :=
      goContains_of_sub _ _ _ hx (by decide)
    simp only [this, Bool.true_or, Bool.or_true]
  · have : goContains (hs.get "Content-Type") "javascript" = true :=
      goContains_of_sub _ _ _ hx (by decide)
    simp only [this, Bool.or_true]
  · have : goContains (hs.get "Content-Type") "xml" = true :=
      goContains_of_sub _ _ _ hx (by decide)
    simp only [this, Bool.true_or, Bool.or_true]

/-- **C7 counterexample.** On the bytes of `"hello"` with an empty declared
`Content-Type`, the content classifier says text (printable ratio 1 > 0.7)
but the replay engine says binary: the two decisions differ for the same
bytes and declared type. -/
theorem replayClassify_disagrees_with_isTextData :
    isTextData [104, 101, 108, 108, 111] "" = true ∧
    replayClassify "" = false ∧
    ¬ ((replayResponseView (fun _ => none) ⟨[]⟩ [104, 101, 108, 108, 111]).1
        = isTextData [104, 101, 108, 108, 111] "") := by
  have h1 : isTextData [104, 101, 108, 108, 111] "" = true :=
    (isTextData_eq_iff _ _).mpr (Or.inr (Or.inr (by decide)))
  refine ⟨h1, by decide, ?_⟩
  intro hcontra
  rw [h1] at hcontra
  exact absurd hcontra (by decide)

/-! ## List query (`getRequests`)

The SQL layer is modelled relationally: a table is a list of rows holding
the selected columns, the `WHERE` clauses become a row predicate, `ORDER BY
timestamp DESC` a sort, and `LIMIT ?/OFFSET ?` a drop/take.  SQLite stores
`DATETIME` values as text and compares them bytewise, so timestamps are
strings under lexicographic order; `LIKE '%pat%'` is ASCII
case-insensitive containment.  `strconv.Atoi` on the two query parameters
is modelled by `Option Int` inputs (`none` for an absent or unparsable
parameter). -/

/-- The columns `getRequests` selects: `id, timestamp, method, url,
status_code`. -/
structure ReqRow where
  id : Nat := 0
  timestamp : String := ""
  method : String := ""
  url : String := ""
  statusCode : Nat := 0
deriving DecidableEq

def toLowerStr (s : String) : String := String.mk (s.data.map Char.toLower)

/-- SQLite `url LIKE '%' || pat || '%'`: case-insensitive substring. -/
def likeContains (s pat : String) : Bool := goContains (toLowerStr s) (toLowerStr pat)

/-- The `WHERE` clauses built by `getRequests`: optional URL containment,
optional `timestamp >= start || " 00:00:00"` and
`timestamp <= end || " 23:59:59"`. -/
def rowMatches (urlFilter startDate endDate : String) (r : ReqRow) : Bool :=
  (urlFilter == "" || likeContains r.url urlFilter) &&
  (startDate == "" || decide ((startDate ++ " 00:00:00") ≤ r.timestamp)) &&
  (endDate == "" || decide (r.timestamp ≤ (endDate ++ " 23:59:59")))

def byTimestampDesc (a b : ReqRow) : Prop := b.timestamp ≤ a.timestamp

instance : DecidableRel byTimestampDesc :=
  fun a b => inferInstanceAs (Decidable (b.timestamp ≤ a.timestamp))

instance : IsTotal ReqRow byTimestampDesc :=
  ⟨fun a b => le_total b.timestamp a.timestamp⟩

instance : IsTrans ReqRow byTimestampDesc :=
  ⟨fun _ _ _ hab hbc => le_trans hbc hab⟩

/-- `ORDER BY timestamp DESC`. -/
def sortByTimestampDesc (rs : List ReqRow) : List ReqRow :=
  List.insertionSort byTimestampDesc rs

/-- `page := 1; if p, err := Atoi(pageStr); err == nil && p > 0 { page = p }`. -/
def parsePage (pageParam : Option Int) : Nat :=
  match pageParam with
  | some p => if 0 < p then p.toNat else 1
  | none => 1

/-- `pageSize := 50; if ps, err := Atoi(...); err == nil && ps > 0 && ps <= 100
{ pageSize = ps }`. -/
def parsePageSize (pageSizeParam : Option Int) : Nat :=
  match pageSizeParam with
  | some ps => if 0 < ps ∧ ps ≤ 100 then ps.toNat else 50
  | none => 50

/-- The JSON payload of `getRequests`. -/
structure GetRequestsResult where
  requests : List ReqRow
  page : Nat
  pageSize : Nat
  totalCount : Nat
  totalPages : Nat
deriving DecidableEq

/-- Source: `getRequests`.  The count query runs with the same filters but
without the two pagination arguments; the page query orders by timestamp
descending with `LIMIT pageSize OFFSET (page-1)*pageSize`; `TotalPages:
(totalCount + pageSize - 1) / pageSize`. -/
def getRequests (rows : List ReqRow) (pageParam pageSizeParam : Option Int)
    (urlFilter startDate endDate : String) : GetRequestsResult :=
  let page := parsePage pageParam
  let pageSize := parsePageSize pageSizeParam
  let offset := (page - 1) * pageSize
  let matching := rows.filter (rowMatches urlFilter startDate endDate)
  let totalCount := matching.length
  { requests := ((sortByTimestampDesc matching).drop offset).take pageSize,
    page := page, pageSize := pageSize, totalCount := totalCount,
    totalPages := (totalCount + pageSize - 1) / pageSize }

theorem parsePageSize_bounds (ps : Option Int) :
    1 ≤ parsePageSize ps ∧ parsePageSize ps ≤ 100 := by
  cases ps with
  | none => simp [parsePageSize]
  | some v =>
    rw [parsePageSize]
    by_cases h : 0 < v ∧ v ≤ 100
    · rw [if_pos h]
      omega
    · rw [if_neg h]
      omega

/-- **C6 (amended).** The list query's page size is always in `[1, 100]`
with default 50 — an in-range requested value is used as-is, while an
absent, unparsable or out-of-range value falls back to the default 50 (it
is not clamped to the nearest bound).  `total_count` is computed with the
same URL/date filters but no pagination, so it is invariant across pages;
`total_pages` is the ceiling of `total_count / pageSize` (characterized by
the two inequalities); the rows are the timestamp-descending order cut by
offset/limit; and 120 matching rows with `page_size=50` give
`total_pages = 3` with page 3 returning the remaining 20 rows. -/
theorem getRequests_pagination (rows : List ReqRow) (p ps : Option Int)
    (f s e : String) :
    (1 ≤ (getRequests rows p ps f s e).pageSize ∧
      (getRequests rows p ps f s e).pageSize ≤ 100) ∧
    (ps = none → (getRequests rows p ps f s e).pageSize = 50) ∧
    (∀ v : Int, ps = some v → ¬ (0 < v ∧ v ≤ 100) →
      (getRequests rows p ps f s e).pageSize = 50) ∧
    (∀ v : Int, ps = some v → 0 < v → v ≤ 100 →
      (getRequests rows p ps f s e).pageSize = v.toNat) ∧
    ((getRequests rows p ps f s e).totalCount
      = (rows.filter (rowMatches f s e)).length) ∧
    ((getRequests rows p ps f s e).totalCount
        ≤ (getRequests rows p ps f s e).pageSize * (getRequests rows p ps f s e).totalPages ∧
      (getRequests rows p ps f s e).pageSize * (getRequests rows p ps f s e).totalPages
        < (getRequests rows p ps f s e).totalCount + (getRequests rows p ps f s e).pageSize) ∧
    List.Sorted byTimestampDesc (sortByTimestampDesc (rows.filter (rowMatches f s e))) ∧
    ((getRequests rows p ps f s e).requests
      = ((sortByTimestampDesc (rows.filter (rowMatches f s e))).drop
          (((getRequests rows p ps f s e).page - 1) * (getRequests rows p ps f s e).pageSize)).take
          (getRequests rows p ps f s e).pageSize) ∧
    ((rows.filter (rowMatches f s e)).length = 120 → p = some 3 → ps = some 50 →
      (getRequests rows p ps f s e).totalPages = 3 ∧
      (getRequests rows p ps f s e).requests.length = 20) := by
  refine ⟨parsePageSize_bounds ps, ?_, ?_, ?_, rfl, ?_, ?_, rfl, ?_⟩
  · rintro rfl
    rfl
  · rintro v rfl hv
    show parsePageSize (some v) = 50
    rw [parsePageSize, if_neg hv]
  · rintro v rfl h1 h2
    show parsePageSize (some v) = v.toNat
    rw [parsePageSize, if_pos ⟨h1, h2⟩]
  · obtain ⟨hps1, _⟩ := parsePageSize_bounds ps
    have hpos : 0 < (getRequests rows p ps f s e).pageSize := hps1
    have hd := Nat.div_add_mod
      ((getRequests rows p ps f s e).totalCount + (getRequests rows p ps f s e).pageSize - 1)
      (getRequests rows p ps f s e).pageSize
    have hm : ((getRequests rows p ps f s e).totalCount
          + (getRequests rows p ps f s e).pageSize - 1) % (getRequests rows p ps f s e).pageSize
        < (getRequests rows p ps f s e).pageSize := Nat.mod_lt _ hpos
    have htp : (getRequests rows p ps f s e).totalPages
        = ((getRequests rows p ps f s e).totalCount
            + (getRequests rows p ps f s e).pageSize - 1) / (getRequests rows p ps f s e).pageSize :=
      rfl
    rw [htp]
    omega
  · exact List.sorted_insertionSort byTimestampDesc _
  · intro h120 hp hps
    subst hp
    subst hps
    have hlen : (sortByTimestampDesc (rows.filter (rowMatches f s e))).length = 120 := by
      rw [sortByTimestampDesc, List.length_insertionSort, h120]
    constructor
    · show ((rows.filter (rowMatches f s e)).length + parsePageSize (some 50) - 1)
          / parsePageSize (some 50) = 3
      rw [h120]
      rfl
    · show (((sortByTimestampDesc (rows.filter (rowMatches f s e))).drop
          ((parsePage (some 3) - 1) * parsePageSize (some 50))).take
          (parsePageSize (some 50))).length = 20
      rw [List.length_take, List.length_drop, hlen]
      rfl

/-- Modelled from the spec: the claim's clamping reading of the page-size
rule, mapping a requested size to the nearest point of `[1, 100]`. -/
def clampPageSizeSpec (requested : Int) : Nat := (max 1 (min 100 requested)).toNat

/-- **C6 counterexample.** A requested `page_size=200` yields 50 (the
default), not the clamped value 100: the code rejects out-of-range values
instead of clamping them. -/
theorem getRequests_pageSize_not_clamped :
    (getRequests [] (some 1) (some 200) "" "" "").pageSize = 50 ∧
    clampPageSizeSpec 200 = 100 ∧
    (getRequests [] (some 1) (some 200) "" "" "").pageSize ≠ clampPageSizeSpec 200 := by
  refine ⟨rfl, rfl, ?_⟩
  decide

/-! ## Schema migration (`InitDB` / `addColumnIfNotExists`)

The store state is the column set of the `requests` table (`PRAGMA
table_info`).  A run of `addColumnIfNotExists` inside the migration
transaction either finds the column (no `ALTER`), executes an `ALTER TABLE
... ADD COLUMN` (which may fail — `alterOk` models the outcome; on failure
the source calls `log.Fatalf`, so the transaction is never committed,
modelled as `none`), and the whole migration commits only when every
addition succeeded.  The pair tracks the columns and the number of `ALTER`
statements performed. -/

/-- The columns of `createTableSQL` in `InitDB`. -/
def baseTableColumns : List String :=
  ["id", "timestamp", "method", "url", "request_headers", "request_body",
   "status_code", "response_headers", "response_body"]

/-- The four columns `InitDB` migrates in, in call order. -/
def migrationColumns : List String :=
  ["request_body_size", "is_request_body_text", "response_body_size",
   "is_response_body_text"]

/-- Source: `addColumnIfNotExists(tx, tableName, columnName, columnType)`.
`st` is (current columns, `ALTER`s performed so far). -/
def addColumnIfNotExists (alterOk : String → Bool) (st : List String × Nat)
    (columnName : String) : Option (List String × Nat) :=
  if st.1.contains columnName then some st
  else if alterOk columnName then some (st.1 ++ [columnName], st.2 + 1)
  else none

/-- The sequence of `addColumnIfNotExists` calls over a column list, starting
from a transaction state; `none` once any addition has failed. -/
def migrateOver (alterOk : String → Bool) (l : List String)
    (st : List String × Nat) : Option (List String × Nat) :=
  l.foldl (fun acc c => acc.bind (fun st0 => addColumnIfNotExists alterOk st0 c)) (some st)

/-- The schema-migration transaction of `InitDB`: the four
`addColumnIfNotExists` calls, committed only if all succeed. -/
def migrateSchema (alterOk : String → Bool) (cols : List String) :
    Option (List String × Nat) :=
  migrateOver alterOk migrationColumns (cols, 0)

/-- `InitDB`: `CREATE TABLE IF NOT EXISTS` (a fresh store starts from the
base columns, an existing store keeps its columns), then the migration
transaction. -/
def InitDB (alterOk : String → Bool) (existing : Option (List String)) :
    Option (List String × Nat) :=
  migrateSchema alterOk (match existing with
    | none => baseTableColumns
    | some cs => cs)

theorem migrateOver_cons (alterOk : String → Bool) (c : String) (l : List String)
    (st : List String × Nat) :
    migrateOver alterOk (c :: l) st
      = (addColumnIfNotExists alterOk st c).bind (fun st1 => migrateOver alterOk l st1) := by
  cases h : addColumnIfNotExists alterOk st c with
  | none =>
    rw [migrateOver, List.foldl_cons]
    show List.foldl _ ((some st).bind fun st0 => addColumnIfNotExists alterOk st0 c) l = _
    rw [Option.some_bind, h, Option.none_bind]
    induction l with
    | nil => rfl
    | cons d l ih =>
      rw [List.foldl_cons]
      exact ih
  | some st1 =>
    rw [migrateOver, List.foldl_cons]
    show List.foldl _ ((some st).bind fun st0 => addColumnIfNotExists alterOk st0 c) l = _
    rw [Option.some_bind, h, Option.some_bind]
    rfl

/-- A successful pass adds every listed column and keeps every column it
started with. -/
theorem migrateOver_mem (alterOk : String → Bool) (l : List String) :
    ∀ (st res : List String × Nat), migrateOver alterOk l st = some res →
      (∀ c ∈ l, c ∈ res.1) ∧ (∀ x ∈ st.1, x ∈ res.1) := by
  induction l with
  | nil =>
    intro st res h
    have : st = res := by
      rw [migrateOver, List.foldl_nil] at h
      exact Option.some.inj h
    subst this
    exact ⟨by simp, fun x hx => hx⟩
  | cons c l ih =>
    intro st res h
    rw [migrateOver_cons] at h
    cases hstep : addColumnIfNotExists alterOk st c with
    | none =>
      rw [hstep, Option.none_bind] at h
      exact absurd h (by simp)
    | some st1 =>
      rw [hstep, Option.some_bind] at h
      obtain ⟨h1, h2⟩ := ih st1 res h
      have hsub : (∀ x ∈ st.1, x ∈ st1.1) ∧ c ∈ st1.1 := by
        rw [addColumnIfNotExists] at hstep
        by_cases hc : st.1.contains c
        · rw [if_pos hc] at hstep
          obtain rfl := Option.some.inj hstep
          refine ⟨fun x hx => hx, ?_⟩
          simpa [List.elem_iff] using hc
        · rw [if_neg hc] at hstep
          by_cases hok : alterOk c = true
          · rw [if_pos hok] at hstep
            obtain rfl := Option.some.inj hstep
            constructor
            · intro x hx
              simp [hx]
            · simp
          · rw [if_neg hok] at hstep
            exact absurd hstep (by simp)
      refine ⟨?_, fun x hx => h2 x (hsub.1 x hx)⟩
      intro d hd
      rcases List.mem_cons.mp hd with rfl | hd
      · exact h2 d hsub.2
      · exact h1 d hd

/-- A pass over columns that are all already present changes nothing and
performs zero alterations. -/
theorem migrateOver_noop (alterOk : String → Bool) (l : List String) :
    ∀ st : List String × Nat, (∀ c ∈ l, c ∈ st.1) →
      migrateOver alterOk l st = some st := by
  induction l with
  | nil =>
    intro st _
    rfl
  | cons c l ih =>
    intro st hall
    rw [migrateOver_cons]
    have hc : st.1.contains c = true := by
      rw [List.elem_iff]
      exact hall c (by simp)
    rw [addColumnIfNotExists, if_pos hc, Option.some_bind]
    exact ih st (fun d hd => hall d (by simp [hd]))

/-- A required addition whose `ALTER` fails aborts the whole pass. -/
theorem migrateOver_fail (alterOk : String → Bool) (c : String) (l : List String)
    (hok : alterOk c = false) :
    ∀ st : List String × Nat, c ∈ l → ¬ c ∈ st.1 →
      migrateOver alterOk l st = none := by
  induction l with
  | nil =>
    intro st hmem _
    exact absurd hmem (by simp)
  | cons d l ih =>
    intro st hmem hnot
    rw [migrateOver_cons]
    by_cases hcd : c = d
    · subst hcd
      have hc : ¬ st.1.contains c = true := by
        rw [List.elem_iff]
        exact hnot
      rw [addColumnIfNotExists, if_neg hc, if_neg (by simp [hok]), Option.none_bind]
    · have hmem2 : c ∈ l := by
        rcases List.mem_cons.mp hmem with h | h
        · exact absurd h hcd
        · exact h
      cases hstep : addColumnIfNotExists alterOk st d with
      | none =>
        rw [Option.none_bind]
      | some st1 =>
        rw [Option.some_bind]
        have hnot1 : ¬ c ∈ st1.1 := by
          rw [addColumnIfNotExists] at hstep
          by_cases hd : st.1.contains d
          · rw [if_pos hd] at hstep
            obtain rfl := Option.some.inj hstep
            exact hnot
          · by_cases hokd : alterOk d = true
            · rw [if_neg hd, if_pos hokd] at hstep
              obtain rfl := Option.some.inj hstep
              intro hin
              rcases List.mem_append.mp hin with h | h
              · exact hnot h
              · exact hcd (by simpa using h)
            · rw [if_neg hd, if_neg hokd] at hstep
              exact absurd hstep (by simp)
        exact ih st1 hmem2 hnot1

/-- **C8.** The startup migration is idempotent and transactional: a column
already present triggers no `ALTER`; after any successful run, a second run
(even under a different `ALTER` outcome) commits the same column set with
zero alterations; a successful run contains every migration column; and if
the `ALTER` for any missing migration column fails, the whole migration
returns no committed state. -/
theorem migrateSchema_idempotent (alterOk alterOk2 : String → Bool)
    (cols cols2 : List String) (n : Nat) :
    (∀ (st : List String × Nat) (c : String), st.1.contains c = true →
      addColumnIfNotExists alterOk st c = some st) ∧
    (migrateSchema alterOk cols = some (cols2, n) →
      migrateSchema alterOk2 cols2 = some (cols2, 0)) ∧
    (migrateSchema alterOk cols = some (cols2, n) →
      ∀ c ∈ migrationColumns, c ∈ cols2) ∧
    (∀ c ∈ migrationColumns, alterOk c = false → ¬ c ∈ cols →
      migrateSchema alterOk cols = none) := by
  refine ⟨?_, ?_, ?_, ?_⟩
  · intro st c hc
    rw [addColumnIfNotExists, if_pos hc]
  · intro h
    have hall := (migrateOver_mem alterOk migrationColumns (cols, 0) (cols2, n) h).1
    exact migrateOver_noop alterOk2 migrationColumns (cols2, 0) hall
  · intro h
    exact (migrateOver_mem alterOk migrationColumns (cols, 0) (cols2, n) h).1
  · intro c hc hok hnot
    exact migrateOver_fail alterOk c migrationColumns hok (cols, 0) hc hnot

/-- **C8 witness.** A concrete double run from the base schema: the first
run adds the four columns (four alterations), the second run performs zero
alterations and leaves the column set unchanged. -/
theorem migrateSchema_idempotent_witness :
    migrateSchema (fun _ => true) (baseTableColumns ++ migrationColumns)
      = some (baseTableColumns ++ migrationColumns, 0) ∧
    (∀ c ∈ migrationColumns, c ∈ baseTableColumns ++ migrationColumns) := by
  have h0 : migrateSchema (fun _ => true) baseTableColumns
      = some (baseTableColumns ++ migrationColumns, 4) := by decide
  have h := migrateSchema_idempotent (fun _ => true) (fun _ => true)
    baseTableColumns (baseTableColumns ++ migrationColumns) 4
  exact ⟨h.2.1 h0, h.2.2.1 h0⟩

/-! ## Replay URL resolution (`replayRequest`)

`replayRequest` parses the configured `-target` and the caller-supplied URL
with `net/url.Parse` and combines them with `URL.ResolveReference`.  `GoURL`
models the parsed URL restricted to the fields in play (scheme, host, path,
raw query — no user info, opaque part, `ForceQuery` or fragment), and
`resolvePath` models `net/url`'s path resolution (RFC 3986 merge and
dot-segment removal) on those shapes.  These model the standard library,
which is not part of the repository's files. -/

structure GoURL where
  scheme : String := ""
  host : String := ""
  path : String := ""
  rawQuery : String := ""
deriving DecidableEq

/-- `base[:strings.LastIndex(base, "/")+1]`: the base path up to and
including its last slash (empty when there is none). -/
def upToLastSlashChars (l : List Char) : List Char :=
  (l.reverse.dropWhile (fun c => !(c == '/'))).reverse

/-- Split a character list on `'/'`, keeping empty segments. -/
def splitOnSlash : List Char → List (List Char)
  | [] => [[]]
  | c :: rest =>
    if c == '/' then [] :: splitOnSlash rest
    else
      match splitOnSlash rest with
      | [] => [[c]]
      | h :: t => (c :: h) :: t

def joinSlash : List (List Char) → List Char
  | [] => []
  | [x] => x
  | x :: y :: t => x ++ '/' :: joinSlash (y :: t)

/-- RFC 3986 dot-segment removal over a segment list: `.` is dropped, `..`
pops the previous output segment. -/
def removeDotSegs (segs : List (List Char)) : List (List Char) :=
  segs.foldl (fun acc s =>
    if s = ['.'] then acc
    else if s = ['.', '.'] then acc.dropLast
    else acc ++ [s]) []

/-- Models `net/url.resolvePath(base, ref)`: an empty `ref` keeps the base
path, an absolute `ref` replaces it, a relative `ref` is appended after the
base's last slash; the merged path then has its dot segments removed, gains
a trailing slash when the last input segment was `.` or `..`, and always
carries a leading slash (the empty merge resolving to the empty path). -/
def resolvePath (base ref : String) : String :=
  let full : List Char :=
    if ref = "" then base.data
    else if charsPrefixOf ['/'] ref.data then ref.data
    else upToLastSlashChars base.data ++ ref.data
  if full = [] then ""
  else
    let rawSegs := splitOnSlash full
    let segs := if charsPrefixOf ['/'] full then rawSegs.drop 1 else rawSegs
    let cleaned := removeDotSegs segs
    let cleaned :=
      if segs.getLast? = some ['.'] ∨ segs.getLast? = some ['.', '.'] then cleaned ++ [[]]
      else cleaned
    String.mk ('/' :: joinSlash cleaned)

/-- Models `net/url.URL.ResolveReference` on `GoURL`: an absolute reference
(or one with a host) is taken as-is up to path cleaning, inheriting at most
the base's scheme; otherwise the base's scheme and host are kept, the paths
are merged, and an entirely empty reference keeps the base's query. -/
def resolveReference (u ref : GoURL) : GoURL :=
  if ref.scheme ≠ "" ∨ ref.host ≠ "" then
    { scheme := if ref.scheme = "" then u.scheme else ref.scheme,
      host := ref.host,
      path := resolvePath ref.path "",
      rawQuery := ref.rawQuery }
  else
    { scheme := u.scheme, host := u.host,
      path := resolvePath u.path ref.path,
      rawQuery := if ref.path = "" ∧ ref.rawQuery = "" then u.rawQuery else ref.rawQuery }

/-- `URL.String()` for the shapes in play: `scheme://host/path?query`. -/
def urlString (u : GoURL) : String :=
  u.scheme ++ "://" ++ u.host ++ u.path ++
    (if u.rawQuery = "" then "" else "?" ++ u.rawQuery)

/-- Source: `replayRequest` — `finalURL :=
parsedTarget.ResolveReference(parsedReplayURL).String()`. -/
def replayResolveURL (target ref : GoURL) : String :=
  urlString (resolveReference target ref)

/-- **C9.** The replay engine resolves a caller-supplied URL without scheme
and host against the configured target's scheme and host (path merged per
`resolvePath`, the reference's query taken when it has a path or query); an
absolute URL (with a scheme, and an already-clean path) is used as-is; and
concretely, replaying `/foo?q=1` against the target `http://api.example.com`
sends the request to `http://api.example.com/foo?q=1`. -/
theorem replayResolveURL_spec (u ref v : GoURL) :
    (ref.scheme = "" → ref.host = "" →
      resolveReference u ref =
        { scheme := u.scheme, host := u.host,
          path := resolvePath u.path ref.path,
          rawQuery := if ref.path = "" ∧ ref.rawQuery = "" then u.rawQuery
                      else ref.rawQuery }) ∧
    (¬ v.scheme = "" → resolvePath v.path "" = v.path →
      resolveReference u v = v) ∧
    (replayResolveURL { scheme := "http", host := "api.example.com" }
        { path := "/foo", rawQuery := "q=1" } = "http://api.example.com/foo?q=1") := by
  refine ⟨?_, ?_, ?_⟩
  · intro h1 h2
    rw [resolveReference, if_neg (by simp [h1, h2])]
  · intro h1 h2
    rw [resolveReference, if_pos (Or.inl h1), if_neg h1, h2]
  · decide

/-- **C9 witness.** Concrete instances of both branches: a relative
reference takes the target's scheme and host, an absolute one is kept
as-is. -/
theorem replayResolveURL_spec_witness :
    resolveReference { scheme := "http", host := "api.example.com" }
        { path := "/foo", rawQuery := "q=1" }
      = { scheme := "http", host := "api.example.com",
          path := resolvePath "" "/foo", rawQuery := "q=1" } ∧
    resolveReference { scheme := "http", host := "api.example.com" }
        { scheme := "https", host := "other.example.org", path := "/abs", rawQuery := "z=2" }
      = { scheme := "https", host := "other.example.org", path := "/abs",
          rawQuery := "z=2" } := by
  have h := replayResolveURL_spec { scheme := "http", host := "api.example.com" }
    { path := "/foo", rawQuery := "q=1" }
    { scheme := "https", host := "other.example.org", path := "/abs", rawQuery := "z=2" }
  exact ⟨h.1 rfl rfl, h.2.1 (by decide) (by decide)⟩

end DGateway
